import Mathlib

/-!
Verification development for the birthday-notification delivery engine.

The model is a shallow embedding of the TypeScript sources:
instants are minutes since the Unix epoch (UTC); an IANA time zone is
modelled by its fixed offset from UTC in minutes; the host clock
(luxon DateTime.now with no zone argument) is modelled in UTC.
Luxon DateTime values are `Option LocalDT`, `none` standing for
luxon's Invalid DateTime (an invalid value propagates through set and
every comparison against it is false, a NaN comparison). DateTime.set
itself performs no Gregorian validation when the day is explicitly
given: the merged fields go through Date.UTC, which overflows
out-of-range values (2025 February 29 becomes 2025 March 1); the day
is clamped to the month's length only when the set does not mention it.
-/

namespace SDT

/-! Gregorian calendar arithmetic (Howard Hinnant's civil-date algorithms). -/

def isLeapYear (y : Int) : Bool :=
  (y % 4 == 0 && y % 100 != 0) || (y % 400 == 0)

def daysInMonth (y m : Int) : Int :=
  if m = 2 then (if isLeapYear y then 29 else 28)
  else if m = 4 ∨ m = 6 ∨ m = 9 ∨ m = 11 then 30
  else 31

def daysFromCivil (y m d : Int) : Int :=
  let y1 := y - (if m ≤ 2 then 1 else 0)
  let era := Int.fdiv y1 400
  let yoe := y1 - era * 400
  let mp := Int.fmod (m + 9) 12
  let doy := Int.fdiv (153 * mp + 2) 5 + d - 1
  let doe := yoe * 365 + Int.fdiv yoe 4 - Int.fdiv yoe 100 + doy
  era * 146097 + doe - 719468

def civilFromDays (z0 : Int) : Int × Int × Int :=
  let z := z0 + 719468
  let era := Int.fdiv z 146097
  let doe := z - era * 146097
  let yoe := Int.fdiv (doe - Int.fdiv doe 1460 + Int.fdiv doe 36524 - Int.fdiv doe 146096) 365
  let y := yoe + era * 400
  let doy := doe - (365 * yoe + Int.fdiv yoe 4 - Int.fdiv yoe 100)
  let mp := Int.fdiv (5 * doy + 2) 153
  let d := doy - Int.fdiv (153 * mp + 2) 5 + 1
  let m := mp + (if mp < 10 then 3 else -9)
  (y + (if m ≤ 2 then 1 else 0), m, d)

/-- LocalDT is a wall-clock date and time as rendered in some time zone. -/
structure LocalDT where
  year : Int
  month : Int
  day : Int
  hour : Int
  minute : Int
deriving DecidableEq, Repr

/-- CalDate is a calendar date with no time component. -/
structure CalDate where
  year : Int
  month : Int
  day : Int
deriving DecidableEq, Repr

/-- localDT renders an instant (minutes since epoch) in a zone given by its
offset from UTC in minutes; this embeds luxon's DateTime.now().setZone(tz). -/
def localDT (t off : Int) : LocalDT :=
  let tl := t + off
  let days := Int.fdiv tl 1440
  let rem := Int.fmod tl 1440
  let c := civilFromDays days
  ⟨c.1, c.2.1, c.2.2, Int.fdiv rem 60, Int.fmod rem 60⟩

/-- toUTCInstant projects a zone-local wall-clock time back to an instant;
this embeds luxon's DateTime.toUTC composed with toJSDate. -/
def toUTCInstant (dt : LocalDT) (off : Int) : Int :=
  daysFromCivil dt.year dt.month dt.day * 1440 + dt.hour * 60 + dt.minute - off

/-- mkUTC builds the instant for a UTC wall-clock date and time. -/
def mkUTC (y m d h mi : Int) : Int :=
  daysFromCivil y m d * 1440 + h * 60 + mi

/-- LuxonDT embeds a luxon DateTime: `none` is luxon's Invalid DateTime. -/
abbrev LuxonDT := Option LocalDT

/-- jsDateNorm is the Date.UTC-style normalization luxon's set relies on:
out-of-range month or day overflow into the neighbouring months (the
daysFromCivil encoding is linear in the day), so 2025 February 29
normalizes to 2025 March 1. -/
def jsDateNorm (y m d h mi : Int) : LocalDT :=
  let yc := y + Int.fdiv (m - 1) 12
  let mn := Int.fmod (m - 1) 12 + 1
  localDT (daysFromCivil yc mn d * 1440 + h * 60 + mi) 0

/-- luxonSetMDH embeds DateTime.set with month, day and hour explicitly
given and minute 0 (second and millisecond are below this model's
granularity). Luxon's set performs no Gregorian validation for an
explicitly-set day: the merged fields go through Date.UTC and overflow,
so February 29 in a non-leap year becomes March 1. An invalid input
stays invalid. -/
def luxonSetMDH (dt : LuxonDT) (m d h : Int) : LuxonDT :=
  dt.map (fun x => jsDateNorm x.year m d h 0)

/-- luxonSetMD embeds DateTime.set with only month and day explicitly
given, keeping the time-of-day fields, with the same Date.UTC overflow
semantics. -/
def luxonSetMD (dt : LuxonDT) (m d : Int) : LuxonDT :=
  dt.map (fun x => jsDateNorm x.year m d x.hour x.minute)

def ldtLt (a b : LocalDT) : Bool :=
  if a.year ≠ b.year then a.year < b.year
  else if a.month ≠ b.month then a.month < b.month
  else if a.day ≠ b.day then a.day < b.day
  else if a.hour ≠ b.hour then a.hour < b.hour
  else a.minute < b.minute

/-- luxonLt embeds luxon's `<` on DateTime: comparisons against an Invalid
DateTime are NaN comparisons and are always false. -/
def luxonLt (a b : LuxonDT) : Bool :=
  match a, b with
  | some x, some y => ldtLt x y
  | _, _ => false

/-- luxonEq embeds luxon's `equals`: false when either side is invalid. -/
def luxonEq (a b : LuxonDT) : Bool :=
  match a, b with
  | some x, some y => x == y
  | _, _ => false

/-- optLtInstant compares a possibly-invalid instant strictly below a valid
one (false when invalid, a NaN comparison). -/
def optLtInstant : Option Int → Int → Bool
  | some t, n => decide (t < n)
  | none, _ => false

/-- optGtInstant compares a possibly-invalid instant strictly above a valid
one (false when invalid). -/
def optGtInstant : Option Int → Int → Bool
  | some t, n => decide (n < t)
  | none, _ => false

/-- optLeInstant compares a possibly-invalid instant at or below a valid
one (false when invalid). -/
def optLeInstant : Option Int → Int → Bool
  | some t, n => decide (t ≤ n)
  | none, _ => false

def pad2 (n : Int) : String :=
  if 0 ≤ n ∧ n < 10 then "0" ++ toString n else toString n

def pad4 (n : Int) : String :=
  if 0 ≤ n ∧ n < 10 then "000" ++ toString n
  else if 0 ≤ n ∧ n < 100 then "00" ++ toString n
  else if 0 ≤ n ∧ n < 1000 then "0" ++ toString n
  else toString n

/-- fmtDate embeds luxon's toFormat with pattern yyyy-MM-dd. -/
def fmtDate (d : CalDate) : String :=
  pad4 d.year ++ "-" ++ pad2 d.month ++ "-" ++ pad2 d.day

/-- fmtDateOpt formats a possibly-invalid date; luxon renders an Invalid
DateTime as the string "Invalid DateTime". -/
def fmtDateOpt : Option CalDate → String
  | some d => fmtDate d
  | none => "Invalid DateTime"

/-- generateIdempotencyKey embeds src/shared/utils.ts generateIdempotencyKey:
the key is userId, messageType and the yyyy-MM-dd date joined by colons. -/
def generateIdempotencyKey (uid mt : String) (d : Option CalDate) : String :=
  uid ++ ":" ++ mt ++ ":" ++ fmtDateOpt d

/-! Data model: the message_logs table and the users table surface. -/

/-- MessageStatus embeds the MessageStatus enum of message-log.model.ts. -/
inductive MessageStatus
  | unprocessed
  | pending
  | processing
  | sent
  | failed
  | retrying
deriving DecidableEq, Repr

/-- MessageLog embeds the MessageLog entity (message-log.model.ts).
`scheduledDate` and `scheduledFor` are Options so that a row computed from
an invalid DateTime could be represented; with Date.UTC overflow semantics
the engine only ever stores `some` values. -/
structure MessageLog where
  id : Nat
  userId : String
  messageType : String
  scheduledDate : Option CalDate
  scheduledFor : Option Int
  idempotencyKey : String
  status : MessageStatus
  attemptCount : Nat
  lastAttemptAt : Option Int
  sentAt : Option Int
  errorMessage : Option String
deriving DecidableEq, Repr

/-- User embeds the engine-visible projection of the users table. The
timezone is modelled by its offset from UTC in minutes. -/
structure User where
  id : String
  email : String
  firstName : String
  lastName : String
  birthDate : CalDate
  tzOffset : Int
  deletedAt : Option Int
deriving DecidableEq, Repr

/-- Store is the message_logs table, a list of rows. -/
abbrev Store := List MessageLog

/-! Schedule Store operations (MessageLogRepository). -/

/-- findByIdempotencyKey embeds MessageLogRepository.findByIdempotencyKey. -/
def findByIdempotencyKey (s : Store) (k : String) : Option MessageLog :=
  s.find? (fun r => r.idempotencyKey == k)

/-- findById embeds MessageLogRepository.findById. -/
def findById (s : Store) (i : Nat) : Option MessageLog :=
  s.find? (fun r => r.id == i)

/-- applyStatus is the row mutation performed by
MessageLogRepository.updateStatus once the row is loaded: it assigns the
requested status unconditionally, always increments attemptCount, stamps
lastAttemptAt, sets sentAt and clears errorMessage on SENT, and stores the
given errorMessage only on FAILED or RETRYING. -/
def applyStatus (r : MessageLog) (st : MessageStatus) (errMsg : Option String) (now : Int) :
    MessageLog :=
  { r with
    status := st
    attemptCount := r.attemptCount + 1
    lastAttemptAt := some now
    sentAt := if st = .sent then some now else r.sentAt
    errorMessage :=
      if st = .sent then none
      else if st = .failed ∨ st = .retrying then errMsg
      else r.errorMessage }

/-- updateStatus embeds MessageLogRepository.updateStatus: load by id (a
missing row leaves the table unchanged), mutate, save by primary key. -/
def updateStatus (s : Store) (i : Nat) (st : MessageStatus) (errMsg : Option String)
    (now : Int) : Store :=
  match findById s i with
  | none => s
  | some _ => s.map (fun r => if r.id = i then applyStatus r st errMsg now else r)

/-- updateScheduledFor embeds MessageLogRepository.update applied with only
the scheduledFor field, object-assigned onto the loaded row. -/
def updateScheduledFor (s : Store) (i : Nat) (sf : Option Int) : Store :=
  match findById s i with
  | none => s
  | some _ => s.map (fun r => if r.id = i then { r with scheduledFor := sf } else r)

/-- freshId models the database assigning a new surrogate id on insert. -/
def freshId (s : Store) : Nat :=
  s.foldr (fun r acc => max (r.id + 1) acc) 0

/-- createLog embeds MessageLogRepository.create: a new row with the model's
column defaults, status unprocessed and attemptCount 0. -/
def createLog (s : Store) (uid mt : String) (sd : Option CalDate) (sf : Option Int)
    (k : String) : MessageLog × Store :=
  let r : MessageLog := ⟨freshId s, uid, mt, sd, sf, k, .unprocessed, 0, none, none, none⟩
  (r, s ++ [r])

/-- createOrGet embeds MessageLogRepository.createOrGet: return the existing
row for the idempotency key unchanged, otherwise insert a new one. The
third component records whether an insert happened. -/
def createOrGet (s : Store) (uid mt : String) (sd : Option CalDate) (sf : Option Int)
    (k : String) : MessageLog × Store × Bool :=
  match findByIdempotencyKey s k with
  | some e => (e, s, false)
  | none =>
      let c := createLog s uid mt sd sf k
      (c.1, c.2, true)

/-- findPendingForDate embeds MessageLogRepository.findPendingForDate:
rows with status pending whose scheduledDate formats to the given date. -/
def findPendingForDate (s : Store) (d : CalDate) : List MessageLog :=
  s.filter (fun r => r.status == .pending && r.scheduledDate == some d)

/-! Email service (email.service.ts): outcome classification of one
outbound delivery attempt through the circuit breaker. -/

/-- EmailEvent is the observable outcome of one outbound call: an HTTP
response with a status and body, a client-side timeout, or a fast failure
because the circuit breaker is open. -/
inductive EmailEvent
  | response (status : Nat) (body : String)
  | timeout
  | circuitOpen
deriving DecidableEq, Repr

/-- Thrown models a JS Error carrying the optional shouldRetry marker the
email service attaches before throwing. -/
structure Thrown where
  message : String
  shouldRetry : Option Bool
deriving DecidableEq, Repr

def clientErrMessage (st : Nat) (body : String) : String :=
  "Email API client error " ++ toString st ++ ": " ++ body

def serverErrMessage (st : Nat) (body : String) : String :=
  "Email API server error " ++ toString st ++ ": " ++ body

def otherErrMessage (st : Nat) (body : String) : String :=
  "Email API returned status " ++ toString st ++ ": " ++ body

def timeoutMessage : String :=
  "Email API request timed out"

def circuitOpenMessage : String :=
  "Email service temporarily unavailable - circuit breaker open"

/-- emailAttempt embeds EmailService.sendEmailRequest together with the
circuit-breaker fallback: 2xx succeeds; 4xx throws with shouldRetry false;
5xx throws with shouldRetry true; other non-ok statuses throw a plain
error; a timeout throws with shouldRetry true; an open circuit throws a
plain error from the fallback. -/
def emailAttempt : EmailEvent → Except Thrown Unit
  | .response st body =>
      if 200 ≤ st ∧ st < 300 then .ok ()
      else if 400 ≤ st ∧ st < 500 then .error ⟨clientErrMessage st body, some false⟩
      else if 500 ≤ st then .error ⟨serverErrMessage st body, some true⟩
      else .error ⟨otherErrMessage st body, none⟩
  | .timeout => .error ⟨timeoutMessage, some true⟩
  | .circuitOpen => .error ⟨circuitOpenMessage, none⟩

/-! Delivery worker (birthdayWorker.ts). -/

/-- JobOutcome is what the worker hands back to the queue: a normal return
(the job is acknowledged, never retried) or a rethrown error (the queue
schedules a backoff retry while attempts remain). -/
inductive JobOutcome
  | ack (success : Bool) (skipped : Bool)
  | rethrow (message : String)
deriving DecidableEq, Repr

/-- workerFailStatus is the worker's retriable-error status choice:
FAILED once attemptsMade + 1 reaches the retry cap, else RETRYING. -/
def workerFailStatus (attemptsMade maxAttempts : Nat) : MessageStatus :=
  if attemptsMade + 1 ≥ maxAttempts then .failed else .retrying

/-- handleRetriableError is the worker's catch branch for a retriable error:
refetch the row by idempotency key and apply workerFailStatus with the
error message (a missing row leaves the table unchanged). -/
def handleRetriableError (s : Store) (k : String) (msg : String)
    (attemptsMade maxAttempts : Nat) (now : Int) : Store :=
  match findByIdempotencyKey s k with
  | none => s
  | some r => updateStatus s r.id (workerFailStatus attemptsMade maxAttempts) (some msg) now

/-- processJob embeds BirthdayWorker.processJob. In order: look up the row
by the job id (missing row: throw, nothing to update, rethrow to the
queue); skip rows already SENT; transition to PROCESSING; load the user
(missing user: throw, caught as retriable); a soft-deleted user is
acknowledged as skipped with no further transition; otherwise classify the
delivery attempt: success transitions to SENT; a shouldRetry-false error
transitions to FAILED and returns (acknowledged, no retry); any other
error applies workerFailStatus and rethrows. -/
def processJob (s : Store) (jobKey : String) (attemptsMade maxAttempts : Nat)
    (userRes : Option User) (ev : EmailEvent) (now : Int) : Store × JobOutcome :=
  match findByIdempotencyKey s jobKey with
  | none => (s, .rethrow ("Message log not found for idempotency key: " ++ jobKey))
  | some log =>
      if log.status = .sent then (s, .ack true true)
      else
        let s1 := updateStatus s log.id .processing none now
        match userRes with
        | none =>
            let msg := "User not found"
            (handleRetriableError s1 jobKey msg attemptsMade maxAttempts now, .rethrow msg)
        | some u =>
            if u.deletedAt.isSome then (s1, .ack true true)
            else
              match emailAttempt ev with
              | .ok _ => (updateStatus s1 log.id .sent none now, .ack true false)
              | .error e =>
                  match findByIdempotencyKey s1 jobKey with
                  | none => (s1, .rethrow e.message)
                  | some log2 =>
                      if e.shouldRetry = some false then
                        (updateStatus s1 log2.id .failed (some e.message) now, .ack false false)
                      else
                        (updateStatus s1 log2.id (workerFailStatus attemptsMade maxAttempts)
                          (some e.message) now, .rethrow e.message)

/-! Notification planner: BirthdayHandler.schedule (birthday-handler.ts).
Mutating steps additionally emit an Action trace so that ordering
properties of the planner can be stated. -/

/-- Action is one externally visible mutation: a queue job removal or
insertion (keyed by idempotency key) or a Schedule Store write. -/
inductive Action
  | queueRemove (jobId : String)
  | queueAdd (jobId : String)
  | storeCreate (key : String)
  | storeStatus (id : Nat) (st : MessageStatus)
  | storeSchedule (id : Nat)
deriving DecidableEq, Repr

/-- BIRTHDAY_MESSAGE_HOUR is the configured local send hour (default 9). -/
def BIRTHDAY_MESSAGE_HOUR : Int := 9

/-- userCreatedLateMarker is the error_message text the handler computes for
a same-day registration after the send hour. -/
def userCreatedLateMarker : String :=
  "User created after scheduled send time, requires manual trigger"

/-- scheduleBirthday embeds BirthdayHandler.schedule: compute this year's
occurrence of the birth (month, day) in the user's zone (luxon set, so
February 29 overflows to March 1 in a non-leap year); skip when it
already passed; otherwise createOrGet the row keyed by the idempotency
key and, when the birthday is today, updateStatus it to pending, passing
the late marker as errorMessage when 09:00 local has already passed. -/
def scheduleBirthday (s : Store) (u : User) (now : Int) : Store × List Action :=
  let todayInUserTz := localDT now u.tzOffset
  let todayDateOnly : LocalDT := { todayInUserTz with hour := 0, minute := 0 }
  let birthdayThisYear : LuxonDT :=
    luxonSetMDH (some todayInUserTz) u.birthDate.month u.birthDate.day 0
  if luxonLt birthdayThisYear (some todayDateOnly) then (s, [])
  else
    let executionTime : LuxonDT :=
      luxonSetMDH (some todayInUserTz) u.birthDate.month u.birthDate.day BIRTHDAY_MESSAGE_HOUR
    let executionTimeUtc : Option Int := executionTime.map (fun dt => toUTCInstant dt u.tzOffset)
    let scheduledDate : Option CalDate := birthdayThisYear.map (fun dt => ⟨dt.year, dt.month, dt.day⟩)
    let key := generateIdempotencyKey u.id "birthday" scheduledDate
    let isBirthdayToday := luxonEq birthdayThisYear (some todayDateOnly)
    let executionTimePassed := optLtInstant executionTimeUtc now
    let status : MessageStatus := if isBirthdayToday then .pending else .unprocessed
    let errMsg : Option String :=
      if isBirthdayToday && executionTimePassed then some userCreatedLateMarker else none
    let cg := createOrGet s u.id "birthday" scheduledDate executionTimeUtc key
    let tr1 : List Action := if cg.2.2 then [.storeCreate key] else []
    if status = .pending ∨ errMsg ≠ none then
      (updateStatus cg.2.1 cg.1.id status errMsg now, tr1 ++ [.storeStatus cg.1.id status])
    else (cg.2.1, tr1)

/-! Hourly sweeper (HourlySchedulerService in scheduler.service.ts). -/

/-- utcParts renders an instant on the host clock, which this model fixes
to UTC (luxon's DateTime.now()). -/
def utcParts (now : Int) : LocalDT := localDT now 0

/-- serverToday is today's calendar date on the host clock. -/
def serverToday (now : Int) : CalDate :=
  let p := utcParts now
  ⟨p.year, p.month, p.day⟩

/-- birthdayMatchesServerToday embeds the filter in
HourlySchedulerService.processTodayBirthdays: the birth (month, day) is
compared against the host clock's current month and day. -/
def birthdayMatchesServerToday (u : User) (now : Int) : Bool :=
  let today := utcParts now
  u.birthDate.month == today.month && u.birthDate.day == today.day

/-- processUserBirthday embeds HourlySchedulerService.processUserBirthday:
compute today's key in the user's zone; an existing row is promoted to
pending only from unprocessed; a missing row is created and then promoted
to pending. -/
def processUserBirthday (s : Store) (u : User) (now : Int) : Store :=
  let todayInUserTz := localDT now u.tzOffset
  let executionTime : LocalDT := { todayInUserTz with hour := BIRTHDAY_MESSAGE_HOUR, minute := 0 }
  let executionTimeUtc := toUTCInstant executionTime u.tzOffset
  let scheduledDate : CalDate := ⟨todayInUserTz.year, todayInUserTz.month, todayInUserTz.day⟩
  let key := generateIdempotencyKey u.id "birthday" (some scheduledDate)
  match findByIdempotencyKey s key with
  | some e => if e.status = .unprocessed then updateStatus s e.id .pending none now else s
  | none =>
      let cg := createOrGet s u.id "birthday" (some scheduledDate) (some executionTimeUtc) key
      updateStatus cg.2.1 cg.1.id .pending none now

/-- processTodayBirthdays embeds
HourlySchedulerService.processTodayBirthdays: filter all users by
birthdayMatchesServerToday and run processUserBirthday on each. -/
def processTodayBirthdays (users : List User) (s : Store) (now : Int) : Store :=
  (users.filter (fun u => birthdayMatchesServerToday u now)).foldl
    (fun acc u => processUserBirthday acc u now) s

/-- QState is the loop state of queueDueMessages: the four counters and
the queue's current set of job ids. -/
structure QState where
  queued : Nat
  skippedNotDue : Nat
  skippedAlreadyQueued : Nat
  failed : List Nat
  jobs : List String
deriving DecidableEq, Repr

/-- qStep is one iteration of the queueDueMessages loop over a pending row:
skip when due-time checking is on and scheduledFor is still in the future;
skip when a queue job with the row's idempotency key already exists;
otherwise enqueue, recording a failure when the queue add throws (the
addFail oracle models BullMQ errors). -/
def qStep (now : Int) (checkDueTime : Bool) (addFail : String → Bool) (st : QState)
    (r : MessageLog) : QState :=
  if checkDueTime && optGtInstant r.scheduledFor now then
    { st with skippedNotDue := st.skippedNotDue + 1 }
  else if st.jobs.contains r.idempotencyKey then
    { st with skippedAlreadyQueued := st.skippedAlreadyQueued + 1 }
  else if addFail r.idempotencyKey then
    { st with failed := st.failed ++ [r.id] }
  else
    { st with queued := st.queued + 1, jobs := st.jobs ++ [r.idempotencyKey] }

/-- QueueSummary is the summary object queueDueMessages returns. -/
structure QueueSummary where
  total : Nat
  queued : Nat
  skippedNotDue : Nat
  skippedAlreadyQueued : Nat
  failed : List Nat
deriving DecidableEq, Repr

/-- queueDueMessages embeds HourlySchedulerService.queueDueMessages: fetch
today's pending rows and run the dispatch loop, returning the summary and
the queue's job ids afterwards. checkDueTime false is the force mode the
manual trigger uses (AdminController.sendPendingMessages). The Schedule
Store itself is never written by this phase. -/
def queueDueMessages (s : Store) (jobs0 : List String) (addFail : String → Bool)
    (now : Int) (checkDueTime : Bool) : QueueSummary × List String :=
  let pend := findPendingForDate s (serverToday now)
  let fin := pend.foldl (qStep now checkDueTime addFail) ⟨0, 0, 0, [], jobs0⟩
  (⟨pend.length, fin.queued, fin.skippedNotDue, fin.skippedAlreadyQueued, fin.failed⟩, fin.jobs)

/-! Notification planner reactions to user edits
(NotificationService.handleBirthdateChange / handleTimezoneChange). -/

/-- cancelledMessage is the error_message written when a birthdate change
cancels a still-cancellable row. -/
def cancelledMessage : String := "Cancelled due to birthdate change"

/-- keyForBirthday computes the idempotency key the notification service
derives for a birth date this year on the host clock (luxon
DateTime.now().set with month and day, formatted as a date). -/
def keyForBirthday (uid : String) (bd : CalDate) (now : Int) : String :=
  let sd : Option CalDate :=
    (luxonSetMD (some (utcParts now)) bd.month bd.day).map (fun dt => ⟨dt.year, dt.month, dt.day⟩)
  generateIdempotencyKey uid "birthday" sd

/-- handleBirthdateChange embeds NotificationService.handleBirthdateChange:
remove the queue job keyed by the old birth date's idempotency key first;
then, when the old row exists, leave it alone in PROCESSING or SENT, and
transition it to FAILED with cancelledMessage when UNPROCESSED or PENDING;
finally plan the new birthday via scheduleBirthday. Returns the store, the
queue job ids and the action trace. -/
def handleBirthdateChange (s : Store) (jobs : List String) (u oldU : User) (now : Int) :
    Store × List String × List Action :=
  let oldKey := keyForBirthday u.id oldU.birthDate now
  let removed := jobs.contains oldKey
  let jobs1 := jobs.filter (fun j => j != oldKey)
  let tr1 : List Action := if removed then [.queueRemove oldKey] else []
  match findByIdempotencyKey s oldKey with
  | some oldLog =>
      if oldLog.status = .processing ∨ oldLog.status = .sent then
        let sch := scheduleBirthday s u now
        (sch.1, jobs1, tr1 ++ sch.2)
      else if oldLog.status = .unprocessed ∨ oldLog.status = .pending then
        let s1 := updateStatus s oldLog.id .failed (some cancelledMessage) now
        let sch := scheduleBirthday s1 u now
        (sch.1, jobs1, tr1 ++ [.storeStatus oldLog.id .failed] ++ sch.2)
      else
        let sch := scheduleBirthday s u now
        (sch.1, jobs1, tr1 ++ sch.2)
  | none =>
      let sch := scheduleBirthday s u now
      (sch.1, jobs1, tr1 ++ sch.2)

/-- handleTimezoneChange embeds NotificationService.handleTimezoneChange:
remove the queue job keyed by the (unchanged) idempotency key first; leave
a PROCESSING or SENT row alone; otherwise recompute scheduledFor at 09:00
in the new zone and update the row; when the row is PENDING and the new
instant is already due, re-enqueue immediately. -/
def handleTimezoneChange (s : Store) (jobs : List String) (u _oldU : User) (now : Int) :
    Store × List String × List Action :=
  let key := keyForBirthday u.id u.birthDate now
  let removed := jobs.contains key
  let jobs1 := jobs.filter (fun j => j != key)
  let tr1 : List Action := if removed then [.queueRemove key] else []
  match findByIdempotencyKey s key with
  | none => (s, jobs1, tr1)
  | some log =>
      if log.status = .processing then (s, jobs1, tr1)
      else if log.status = .sent then (s, jobs1, tr1)
      else
        let todayInNewTz := localDT now u.tzOffset
        let execTime : LuxonDT :=
          luxonSetMDH (some todayInNewTz) u.birthDate.month u.birthDate.day BIRTHDAY_MESSAGE_HOUR
        let newSF : Option Int := execTime.map (fun dt => toUTCInstant dt u.tzOffset)
        let s1 := updateScheduledFor s log.id newSF
        let tr2 := tr1 ++ [Action.storeSchedule log.id]
        if log.status = .pending ∧ optLeInstant newSF now then
          (s1, jobs1 ++ [key], tr2 ++ [Action.queueAdd key])
        else (s1, jobs1, tr2)

/-! Store-level invariants and concrete fixtures used by the theorems. -/

/-- keyWellFormed states that every row's idempotency key is the one
generated from its (recipient, message type, local date) triple, as every
writer in the engine does. -/
def keyWellFormed (s : Store) : Prop :=
  ∀ r ∈ s, r.idempotencyKey = generateIdempotencyKey r.userId r.messageType r.scheduledDate

/-- keysNodup states the store's unique index on idempotency_key. -/
def keysNodup (s : Store) : Prop :=
  (s.map (fun r => r.idempotencyKey)).Nodup

/-- idsNodup states the store's primary-key uniqueness on id. -/
def idsNodup (s : Store) : Prop :=
  (s.map (fun r => r.id)).Nodup

/-- runUpdates applies a sequence of updateStatus calls (id, status,
errorMessage, timestamp) to the store, in order. -/
def runUpdates (s : Store) (ops : List (Nat × MessageStatus × Option String × Int)) : Store :=
  ops.foldl (fun acc o => updateStatus acc o.1 o.2.1 o.2.2.1 o.2.2.2) s

/-- planKey is the idempotency key scheduleBirthday computes for a user at
one instant (this year's occurrence of the birth month and day in the
user's zone, with Date.UTC overflow for a day beyond the month's end). -/
def planKey (u : User) (now : Int) : String :=
  generateIdempotencyKey u.id "birthday"
    ((luxonSetMDH (some (localDT now u.tzOffset)) u.birthDate.month u.birthDate.day 0).map
      (fun dt => ⟨dt.year, dt.month, dt.day⟩))

/-- fixtureUnprocessed is a concrete freshly created row. -/
def fixtureUnprocessed : MessageLog :=
  ⟨0, "u1", "birthday", some ⟨2024, 1, 15⟩, some (mkUTC 2024 1 15 14 0),
    "u1:birthday:2024-01-15", .unprocessed, 0, none, none, none⟩

/-- fixtureSent is a concrete row that has already been delivered. -/
def fixtureSent : MessageLog :=
  ⟨0, "u1", "birthday", some ⟨2024, 1, 15⟩, some (mkUTC 2024 1 15 14 0),
    "u1:birthday:2024-01-15", .sent, 1, some (mkUTC 2024 1 15 14 0),
    some (mkUTC 2024 1 15 14 0), none⟩

/-- fixturePending is a concrete row awaiting dispatch. -/
def fixturePending : MessageLog :=
  ⟨0, "u1", "birthday", some ⟨2024, 1, 15⟩, some (mkUTC 2024 1 15 14 0),
    "u1:birthday:2024-01-15", .pending, 0, none, none, none⟩

/-- fixturePendingLater is a concrete pending row for the same local date
whose scheduled_for is still in the future at 14:00Z. -/
def fixturePendingLater : MessageLog :=
  ⟨1, "u9", "birthday", some ⟨2024, 1, 15⟩, some (mkUTC 2024 1 15 23 0),
    "u9:birthday:2024-01-15", .pending, 0, none, none, none⟩

/-- fixtureUserLive is a concrete live recipient (New York winter offset). -/
def fixtureUserLive : User :=
  ⟨"u1", "john@x", "John", "Doe", ⟨1990, 1, 15⟩, -300, none⟩

/-- fixtureUserDeleted is fixtureUserLive after a soft delete. -/
def fixtureUserDeleted : User :=
  ⟨"u1", "john@x", "John", "Doe", ⟨1990, 1, 15⟩, -300, some (mkUTC 2024 1 10 0 0)⟩

/-- fixtureUserNewBirth is fixtureUserLive after a birth-date edit to
20 March. -/
def fixtureUserNewBirth : User :=
  ⟨"u1", "john@x", "John", "Doe", ⟨1990, 3, 20⟩, -300, none⟩

/-- fixtureUserYearEdit is fixtureUserLive after a year-only birth-date
edit (same month and day, so the plan key collides with the old one). -/
def fixtureUserYearEdit : User :=
  ⟨"u1", "john@x", "John", "Doe", ⟨1991, 1, 15⟩, -300, none⟩

/-- fixtureUserLate is a recipient whose birthday is today (UTC) and who is
created after the 09:00 local send hour. -/
def fixtureUserLate : User :=
  ⟨"u4", "late@x", "Late", "Reg", ⟨1990, 6, 1⟩, 0, none⟩

/-- fixtureUserLeap is a recipient born on February 29 (UTC zone). -/
def fixtureUserLeap : User :=
  ⟨"u2", "leap@x", "Leap", "Day", ⟨2000, 2, 29⟩, 0, none⟩

/-- fixtureUserEast is a recipient in a UTC+10 zone whose birth month and
day will match the date in their own zone but not the host clock's. -/
def fixtureUserEast : User :=
  ⟨"u3", "east@x", "Ten", "East", ⟨1990, 6, 2⟩, 600, none⟩

end SDT

namespace SDT

/-! Helper lemmas about the Schedule Store operations. -/

theorem findByKey_map (s : Store) (k : String) (g : MessageLog → MessageLog)
    (hg : ∀ r, (g r).idempotencyKey = r.idempotencyKey) :
    findByIdempotencyKey (s.map g) k = (findByIdempotencyKey s k).map g := by
  have hp : ((fun r => r.idempotencyKey == k) ∘ g) = fun r => r.idempotencyKey == k := by
    funext r
    simp [Function.comp, hg]
  unfold findByIdempotencyKey
  rw [List.find?_map, hp]

theorem findById_map (s : Store) (i : Nat) (g : MessageLog → MessageLog)
    (hg : ∀ r, (g r).id = r.id) :
    findById (s.map g) i = (findById s i).map g := by
  have hp : ((fun r => r.id == i) ∘ g) = fun r => r.id == i := by
    funext r
    simp [Function.comp, hg]
  unfold findById
  rw [List.find?_map, hp]

theorem findById_some_id {s : Store} {i : Nat} {r : MessageLog}
    (h : findById s i = some r) : r.id = i := by
  have := List.find?_some h
  simpa using this

theorem findById_some_mem {s : Store} {i : Nat} {r : MessageLog}
    (h : findById s i = some r) : r ∈ s :=
  List.mem_of_find?_eq_some h

theorem findByKey_some_key {s : Store} {k : String} {r : MessageLog}
    (h : findByIdempotencyKey s k = some r) : r.idempotencyKey = k := by
  have := List.find?_some h
  simpa using this

theorem findByKey_some_mem {s : Store} {k : String} {r : MessageLog}
    (h : findByIdempotencyKey s k = some r) : r ∈ s :=
  List.mem_of_find?_eq_some h

theorem applyStatus_id (r : MessageLog) (st : MessageStatus) (e : Option String) (n : Int) :
    (applyStatus r st e n).id = r.id := rfl

theorem applyStatus_key (r : MessageLog) (st : MessageStatus) (e : Option String) (n : Int) :
    (applyStatus r st e n).idempotencyKey = r.idempotencyKey := rfl

theorem findById_updateStatus (s : Store) (j : Nat) (st : MessageStatus)
    (e : Option String) (n : Int) (i : Nat) :
    findById (updateStatus s j st e n) i
      = (findById s i).map (fun r => if r.id = j then applyStatus r st e n else r) := by
  unfold updateStatus
  cases h : findById s j with
  | some r0 =>
      rw [findById_map]
      intro r
      by_cases hr : r.id = j <;> simp [hr, applyStatus_id]
  | none =>
      cases h2 : findById s i with
      | none => simp
      | some r =>
          have hmem := findById_some_mem h2
          have hne : ¬(r.id == j) = true := by
            have h' : List.find? (fun rr => rr.id == j) s = none := h
            exact fun hc => by
              have := List.find?_eq_none.mp h' r hmem
              exact this hc
          have : r.id ≠ j := by simpa using hne
          simp [this]

theorem findByKey_updateStatus (s : Store) (j : Nat) (st : MessageStatus)
    (e : Option String) (n : Int) (k : String) :
    findByIdempotencyKey (updateStatus s j st e n) k
      = (findByIdempotencyKey s k).map (fun r => if r.id = j then applyStatus r st e n else r) := by
  unfold updateStatus
  cases h : findById s j with
  | some r0 =>
      rw [findByKey_map]
      intro r
      by_cases hr : r.id = j <;> simp [hr, applyStatus_key]
  | none =>
      cases h2 : findByIdempotencyKey s k with
      | none => simp
      | some r =>
          have hmem := findByKey_some_mem h2
          have h' : List.find? (fun rr => rr.id == j) s = none := h
          have : r.id ≠ j := by
            intro hc
            have := List.find?_eq_none.mp h' r hmem
            simp [hc] at this
          simp [this]

theorem updateStatus_self {s : Store} {i : Nat} {r : MessageLog}
    (st : MessageStatus) (e : Option String) (n : Int)
    (h : findById s i = some r) :
    findById (updateStatus s i st e n) i = some (applyStatus r st e n) := by
  rw [findById_updateStatus, h]
  simp [findById_some_id h]

theorem createOrGet_existing {s : Store} {k : String} {e : MessageLog}
    (uid mt : String) (sd : Option CalDate) (sf : Option Int)
    (h : findByIdempotencyKey s k = some e) :
    createOrGet s uid mt sd sf k = (e, s, false) := by
  simp [createOrGet, h]

theorem createOrGet_new {s : Store} {k : String}
    (uid mt : String) (sd : Option CalDate) (sf : Option Int)
    (h : findByIdempotencyKey s k = none) :
    createOrGet s uid mt sd sf k =
      (⟨freshId s, uid, mt, sd, sf, k, .unprocessed, 0, none, none, none⟩,
        s ++ [⟨freshId s, uid, mt, sd, sf, k, .unprocessed, 0, none, none, none⟩], true) := by
  simp [createOrGet, createLog, h]

theorem mem_id_lt_freshId {s : Store} {r : MessageLog} (hmem : r ∈ s) :
    r.id < freshId s := by
  induction s with
  | nil => cases hmem
  | cons a t ih =>
      rcases List.mem_cons.mp hmem with h | h
      · subst h
        simp only [freshId, List.foldr_cons]
        omega
      · have := ih h
        simp only [freshId, List.foldr_cons] at *
        omega

theorem findById_of_mem {s : Store} {r : MessageLog}
    (hnd : idsNodup s) (hmem : r ∈ s) : findById s r.id = some r := by
  induction s with
  | nil => cases hmem
  | cons a t ih =>
      have hnd' := hnd
      simp only [idsNodup, List.map_cons, List.nodup_cons] at hnd'
      rcases List.mem_cons.mp hmem with h | h
      · subst h
        simp [findById, List.find?]
      · have hane : a.id ≠ r.id := by
          intro hc
          exact hnd'.1 (hc ▸ List.mem_map_of_mem (fun x => x.id) h)
        have hpa : ¬((fun rr => rr.id == r.id) a = true) := by simp [hane]
        calc findById (a :: t) r.id = findById t r.id := by
              unfold findById
              exact List.find?_cons_of_neg _ hpa
          _ = some r := ih hnd'.2 h

end SDT

namespace SDT

/-! Claim C1. -/

/-- C1 (amended): the Schedule Store's transition operation performs no
transition validation at all — it applies any requested status, so a SENT
record's status can be changed by a later call; however, whenever a
transition sets status SENT it also sets sent_at, so every record whose
status was last written as SENT by the transition operation has
sent_at ≠ null. -/
theorem c1_transition_unvalidated (s : Store) (i : Nat) (st : MessageStatus)
    (errMsg : Option String) (now : Int) (r : MessageLog)
    (h : findById s i = some r) :
    findById (updateStatus s i st errMsg now) i = some (applyStatus r st errMsg now) ∧
    (applyStatus r st errMsg now).status = st ∧
    (st = .sent → (applyStatus r st errMsg now).sentAt = some now) := by
  refine ⟨updateStatus_self st errMsg now h, rfl, ?_⟩
  intro hsent
  simp [applyStatus, hsent]

/-- C1 witness: the amended theorem applied to a concrete SENT row being
moved to FAILED. -/
theorem c1_transition_unvalidated_witness :
    findById (updateStatus [fixtureSent] 0 .failed (some "boom") 10) 0
      = some (applyStatus fixtureSent .failed (some "boom") 10) ∧
    (applyStatus fixtureSent .failed (some "boom") 10).status = .failed ∧
    (MessageStatus.failed = MessageStatus.sent →
      (applyStatus fixtureSent .failed (some "boom") 10).sentAt = some 10) :=
  c1_transition_unvalidated [fixtureSent] 0 .failed (some "boom") 10 fixtureSent (by decide)

/-- C1 counterexample: the claim says a record with status SENT never
transitions out of SENT, but updateStatus moves a concrete SENT row to
FAILED — no transition is rejected. -/
theorem c1_sent_transitions_out :
    (updateStatus [fixtureSent] 0 MessageStatus.failed (some "boom") 10).map
        (fun r => r.status) = [MessageStatus.failed] ∧
    MessageStatus.failed ≠ MessageStatus.sent := by
  constructor
  · decide
  · decide

/-! Claim C7. -/

/-- C7: create_if_absent is idempotent — when a row with the idempotency
key already exists it returns that row and leaves the store unchanged; it
preserves the unique index on idempotency_key and the key's derivation
from the (recipient, type, local date) triple; and under those two
invariants at most one row exists per triple. -/
theorem c7_createOrGet_idempotent (s : Store) (uid mt : String)
    (sd : Option CalDate) (sf : Option Int) (k : String) :
    (∀ e, findByIdempotencyKey s k = some e →
        createOrGet s uid mt sd sf k = (e, s, false)) ∧
    (keysNodup s → keysNodup (createOrGet s uid mt sd sf k).2.1) ∧
    (k = generateIdempotencyKey uid mt sd → keyWellFormed s →
        keyWellFormed (createOrGet s uid mt sd sf k).2.1) ∧
    (keysNodup s → keyWellFormed s →
        ∀ r1 ∈ s, ∀ r2 ∈ s,
          r1.userId = r2.userId → r1.messageType = r2.messageType →
          r1.scheduledDate = r2.scheduledDate → r1 = r2) := by
  refine ⟨fun e he => createOrGet_existing uid mt sd sf he, ?_, ?_, ?_⟩
  · intro hnd
    cases h : findByIdempotencyKey s k with
    | some e => simpa [createOrGet_existing uid mt sd sf h] using hnd
    | none =>
        rw [createOrGet_new uid mt sd sf h]
        have hk : ∀ r ∈ s, r.idempotencyKey ≠ k := by
          intro r hr hc
          have h' : List.find? (fun rr => rr.idempotencyKey == k) s = none := h
          have := List.find?_eq_none.mp h' r hr
          simp [hc] at this
        simp only [keysNodup, List.map_append, List.map_cons, List.map_nil] at *
        rw [List.nodup_append]
        refine ⟨hnd, List.nodup_singleton k, ?_⟩
        intro x hx
        rcases List.mem_map.mp hx with ⟨r, hr, hrx⟩
        simp only [List.mem_singleton]
        intro hc
        exact hk r hr (by rw [hrx, hc])
  · intro hkgen hwf
    cases h : findByIdempotencyKey s k with
    | some e => simpa [createOrGet_existing uid mt sd sf h] using hwf
    | none =>
        rw [createOrGet_new uid mt sd sf h]
        intro r hr
        rcases List.mem_append.mp hr with hl | hl
        · exact hwf r hl
        · simp only [List.mem_singleton] at hl
          subst hl
          simpa using hkgen
  · intro hnd hwf r1 h1 r2 h2 hu hm hd
    have hkey : r1.idempotencyKey = r2.idempotencyKey := by
      rw [hwf r1 h1, hwf r2 h2, hu, hm, hd]
    exact List.inj_on_of_nodup_map hnd h1 h2 hkey

/-- C7 witness: a store already holding the row for the key — createOrGet
returns that row and leaves the store unchanged, and the uniqueness
invariants give at most one row for the fixture's triple. -/
theorem c7_createOrGet_idempotent_witness :
    createOrGet [fixtureSent] "u1" "birthday" (some ⟨2024, 1, 15⟩)
        (some (mkUTC 2024 1 15 14 0)) "u1:birthday:2024-01-15"
      = (fixtureSent, [fixtureSent], false) :=
  (c7_createOrGet_idempotent [fixtureSent] "u1" "birthday" (some ⟨2024, 1, 15⟩)
    (some (mkUTC 2024 1 15 14 0)) "u1:birthday:2024-01-15").1 fixtureSent (by decide)

/-! Claim C8. -/

theorem findById_runUpdates_mono (ops : List (Nat × MessageStatus × Option String × Int)) :
    ∀ (s : Store) (i : Nat) (r : MessageLog), findById s i = some r →
      ∃ r', findById (runUpdates s ops) i = some r' ∧ r.attemptCount ≤ r'.attemptCount := by
  induction ops with
  | nil =>
      intro s i r h
      exact ⟨r, h, le_refl _⟩
  | cons o t ih =>
      intro s i r h
      by_cases hi : r.id = o.1
      · have hstep : findById (updateStatus s o.1 o.2.1 o.2.2.1 o.2.2.2) i
            = some (applyStatus r o.2.1 o.2.2.1 o.2.2.2) := by
          rw [findById_updateStatus, h]
          simp [hi]
        obtain ⟨r', h', hle⟩ := ih _ i _ hstep
        refine ⟨r', by simpa [runUpdates] using h', ?_⟩
        have hinc : (applyStatus r o.2.1 o.2.2.1 o.2.2.2).attemptCount
            = r.attemptCount + 1 := rfl
        omega
      · have hstep : findById (updateStatus s o.1 o.2.1 o.2.2.1 o.2.2.2) i = some r := by
          rw [findById_updateStatus, h]
          simp [hi]
        obtain ⟨r', h', hle⟩ := ih _ i _ hstep
        exact ⟨r', by simpa [runUpdates] using h', hle⟩

/-- C8 (amended): the transition operation increments attempt_count on
every call, whatever the target status (not only on PROCESSING, SENT,
RETRYING or FAILED); consequently a record delivered successfully on the
first attempt ends with status SENT and attempt_count = 2 — the
PROCESSING and the SENT transitions each increment — and attempt_count is
monotonically non-decreasing across any sequence of transitions. -/
theorem c8_attempt_count_amended :
    (∀ (r : MessageLog) (st : MessageStatus) (e : Option String) (n : Int),
        (applyStatus r st e n).attemptCount = r.attemptCount + 1) ∧
    (∀ (ops : List (Nat × MessageStatus × Option String × Int)) (s : Store) (i : Nat)
        (r r' : MessageLog), findById s i = some r →
        findById (runUpdates s ops) i = some r' →
        r.attemptCount ≤ r'.attemptCount) ∧
    (∀ (s : Store) (k : String) (aMade maxA : Nat) (u : User) (b : String) (now : Int)
        (log : MessageLog),
        findByIdempotencyKey s k = some log → log.status ≠ .sent → u.deletedAt = none →
        ∃ r', findByIdempotencyKey
              (processJob s k aMade maxA (some u) (.response 200 b) now).1 k = some r' ∧
          r'.status = .sent ∧ r'.attemptCount = log.attemptCount + 2 ∧ r'.sentAt = some now ∧
          (processJob s k aMade maxA (some u) (.response 200 b) now).2 = .ack true false) := by
  refine ⟨fun r st e n => rfl, ?_, ?_⟩
  · intro ops s i r r' h h'
    obtain ⟨r0, h0, hle⟩ := findById_runUpdates_mono ops s i r h
    rw [h'] at h0
    cases h0
    exact hle
  · intro s k aMade maxA u b now log hk hst hdel
    have hmail : emailAttempt (.response 200 b) = .ok () := by
      simp [emailAttempt]
    have hres : processJob s k aMade maxA (some u) (.response 200 b) now
        = (updateStatus (updateStatus s log.id .processing none now) log.id .sent none now,
            .ack true false) := by
      unfold processJob
      rw [hk]
      simp only [if_neg hst, hdel, Option.isSome_none, Bool.false_eq_true, if_false, hmail]
    rw [hres]
    rw [findByKey_updateStatus, findByKey_updateStatus, hk]
    refine ⟨applyStatus (applyStatus log .processing none now) .sent none now,
      ?_, rfl, rfl, ?_, rfl⟩
    · simp [applyStatus_id]
    · simp [applyStatus]

/-- C8 witness: the amended theorem applied to a concrete pending row and
live recipient delivered on the first attempt. -/
theorem c8_attempt_count_amended_witness :
    ∃ r', findByIdempotencyKey
        (processJob [fixturePending] "u1:birthday:2024-01-15" 0 5 (some fixtureUserLive)
          (.response 200 "ok") (mkUTC 2024 1 15 14 0)).1 "u1:birthday:2024-01-15" = some r' ∧
      r'.status = .sent ∧ r'.attemptCount = fixturePending.attemptCount + 2 ∧
      r'.sentAt = some (mkUTC 2024 1 15 14 0) ∧
      (processJob [fixturePending] "u1:birthday:2024-01-15" 0 5 (some fixtureUserLive)
        (.response 200 "ok") (mkUTC 2024 1 15 14 0)).2 = .ack true false :=
  c8_attempt_count_amended.2.2 [fixturePending] "u1:birthday:2024-01-15" 0 5 fixtureUserLive
    "ok" (mkUTC 2024 1 15 14 0) fixturePending (by decide) (by decide) (by decide)

/-- C8 counterexample: the claim requires that entering PENDING does not
increment attempt_count, and that a first-attempt success ends with
attempt_count = 1; the code increments on the PENDING promotion (0 to 1)
and a first-attempt success ends with attempt_count = 2. -/
theorem c8_increment_on_pending :
    (updateStatus [fixtureUnprocessed] 0 .pending none 5).map (fun r => r.attemptCount)
        = [1] ∧
    (processJob [fixturePending] "u1:birthday:2024-01-15" 0 5 (some fixtureUserLive)
        (.response 200 "ok") (mkUTC 2024 1 15 14 0)).1.map (fun r => r.attemptCount)
        = [2] ∧
    (1 : Nat) ≠ 0 ∧ (2 : Nat) ≠ 1 := by
  refine ⟨by decide, by decide, by decide, by decide⟩

/-! Claims C2 and C3: the worker's outcome classification. -/

theorem workerFailStatus_cases (aMade maxA : Nat) :
    workerFailStatus aMade maxA = .failed ∨ workerFailStatus aMade maxA = .retrying := by
  unfold workerFailStatus
  split <;> simp

theorem processJob_error {s : Store} {k : String} (aMade maxA : Nat) {u : User}
    {ev : EmailEvent} {e : Thrown} (now : Int) {log : MessageLog}
    (hk : findByIdempotencyKey s k = some log) (hst : log.status ≠ .sent)
    (hdel : u.deletedAt = none) (hev : emailAttempt ev = .error e) :
    processJob s k aMade maxA (some u) ev now
      = (if e.shouldRetry = some false then
          (updateStatus (updateStatus s log.id .processing none now) log.id .failed
            (some e.message) now, .ack false false)
        else
          (updateStatus (updateStatus s log.id .processing none now) log.id
            (workerFailStatus aMade maxA) (some e.message) now, .rethrow e.message)) := by
  have hk1 : findByIdempotencyKey (updateStatus s log.id .processing none now) k
      = some (applyStatus log .processing none now) := by
    rw [findByKey_updateStatus, hk]
    simp
  unfold processJob
  rw [hk]
  simp only [if_neg hst, hdel, Option.isSome_none, Bool.false_eq_true, if_false, hev, hk1]
  rfl

theorem processJob_error_noretry {s : Store} {k : String} (aMade maxA : Nat) {u : User}
    {ev : EmailEvent} {e : Thrown} (now : Int) {log : MessageLog}
    (hk : findByIdempotencyKey s k = some log) (hst : log.status ≠ .sent)
    (hdel : u.deletedAt = none) (hev : emailAttempt ev = .error e)
    (hr : e.shouldRetry = some false) :
    findByIdempotencyKey (processJob s k aMade maxA (some u) ev now).1 k
      = some (applyStatus (applyStatus log .processing none now) .failed
          (some e.message) now) ∧
    (processJob s k aMade maxA (some u) ev now).2 = .ack false false := by
  rw [processJob_error aMade maxA now hk hst hdel hev]
  rw [if_pos hr]
  constructor
  · rw [findByKey_updateStatus, findByKey_updateStatus, hk]
    simp [applyStatus_id]
  · rfl

theorem processJob_error_retry {s : Store} {k : String} (aMade maxA : Nat) {u : User}
    {ev : EmailEvent} {e : Thrown} (now : Int) {log : MessageLog}
    (hk : findByIdempotencyKey s k = some log) (hst : log.status ≠ .sent)
    (hdel : u.deletedAt = none) (hev : emailAttempt ev = .error e)
    (hr : e.shouldRetry ≠ some false) :
    findByIdempotencyKey (processJob s k aMade maxA (some u) ev now).1 k
      = some (applyStatus (applyStatus log .processing none now)
          (workerFailStatus aMade maxA) (some e.message) now) ∧
    (processJob s k aMade maxA (some u) ev now).2 = .rethrow e.message := by
  rw [processJob_error aMade maxA now hk hst hdel hev]
  rw [if_neg hr]
  constructor
  · rw [findByKey_updateStatus, findByKey_updateStatus, hk]
    simp [applyStatus_id]
  · rfl

/-- C2: the worker's delivery outcomes are classified as the claim states —
a 4xx response transitions the record to FAILED carrying the error body
and the job is acknowledged (no retry); a 5xx response, a timeout or an
open circuit breaker transitions the record to FAILED when
attempts_made + 1 ≥ MAX_ATTEMPTS and to RETRYING otherwise, and the error
is rethrown so the queue schedules a backoff retry. -/
theorem c2_worker_outcomes (s : Store) (k : String) (aMade maxA : Nat) (u : User)
    (now : Int) (log : MessageLog)
    (hk : findByIdempotencyKey s k = some log) (hst : log.status ≠ .sent)
    (hdel : u.deletedAt = none) :
    (∀ (stc : Nat) (b : String), 400 ≤ stc → stc < 500 →
        ∃ r', findByIdempotencyKey
              (processJob s k aMade maxA (some u) (.response stc b) now).1 k = some r' ∧
          r'.status = .failed ∧ r'.errorMessage = some (clientErrMessage stc b) ∧
          (processJob s k aMade maxA (some u) (.response stc b) now).2 = .ack false false) ∧
    (∀ (stc : Nat) (b : String), 500 ≤ stc →
        ∃ r', findByIdempotencyKey
              (processJob s k aMade maxA (some u) (.response stc b) now).1 k = some r' ∧
          r'.status = workerFailStatus aMade maxA ∧
          r'.errorMessage = some (serverErrMessage stc b) ∧
          (processJob s k aMade maxA (some u) (.response stc b) now).2
            = .rethrow (serverErrMessage stc b)) ∧
    (∃ r', findByIdempotencyKey
          (processJob s k aMade maxA (some u) .timeout now).1 k = some r' ∧
        r'.status = workerFailStatus aMade maxA ∧
        r'.errorMessage = some timeoutMessage ∧
        (processJob s k aMade maxA (some u) .timeout now).2 = .rethrow timeoutMessage) ∧
    (∃ r', findByIdempotencyKey
          (processJob s k aMade maxA (some u) .circuitOpen now).1 k = some r' ∧
        r'.status = workerFailStatus aMade maxA ∧
        r'.errorMessage = some circuitOpenMessage ∧
        (processJob s k aMade maxA (some u) .circuitOpen now).2
          = .rethrow circuitOpenMessage) ∧
    workerFailStatus aMade maxA = (if aMade + 1 ≥ maxA then .failed else .retrying) := by
  refine ⟨?_, ?_, ?_, ?_, rfl⟩
  · intro stc b h4 h5
    have hev : emailAttempt (.response stc b) = .error ⟨clientErrMessage stc b, some false⟩ := by
      have hn2 : ¬(200 ≤ stc ∧ stc < 300) := by omega
      have h45 : 400 ≤ stc ∧ stc < 500 := ⟨h4, h5⟩
      simp [emailAttempt, hn2, h45]
    obtain ⟨h1, h2⟩ := processJob_error_noretry aMade maxA now hk hst hdel hev rfl
    exact ⟨_, h1, rfl, by simp [applyStatus], h2⟩
  · intro stc b h5
    have hev : emailAttempt (.response stc b) = .error ⟨serverErrMessage stc b, some true⟩ := by
      have hn2 : ¬(200 ≤ stc ∧ stc < 300) := by omega
      have hn4 : ¬(400 ≤ stc ∧ stc < 500) := by omega
      simp [emailAttempt, hn2, hn4, h5]
    obtain ⟨h1, h2⟩ := processJob_error_retry aMade maxA now hk hst hdel hev (by simp)
    refine ⟨_, h1, rfl, ?_, h2⟩
    rcases workerFailStatus_cases aMade maxA with hw | hw <;> simp [applyStatus, hw]
  · have hev : emailAttempt .timeout = .error ⟨timeoutMessage, some true⟩ := rfl
    obtain ⟨h1, h2⟩ := processJob_error_retry aMade maxA now hk hst hdel hev (by simp)
    refine ⟨_, h1, rfl, ?_, h2⟩
    rcases workerFailStatus_cases aMade maxA with hw | hw <;> simp [applyStatus, hw]
  · have hev : emailAttempt .circuitOpen = .error ⟨circuitOpenMessage, none⟩ := rfl
    obtain ⟨h1, h2⟩ := processJob_error_retry aMade maxA now hk hst hdel hev (by simp)
    refine ⟨_, h1, rfl, ?_, h2⟩
    rcases workerFailStatus_cases aMade maxA with hw | hw <;> simp [applyStatus, hw]

/-- C2 witness: the classification applied to a concrete pending row and
live recipient, one instance per outcome family. -/
theorem c2_worker_outcomes_witness :
    ∃ r', findByIdempotencyKey
          (processJob [fixturePending] "u1:birthday:2024-01-15" 0 5 (some fixtureUserLive)
            (.response 400 "bad request") 99).1 "u1:birthday:2024-01-15" = some r' ∧
      r'.status = .failed ∧ r'.errorMessage = some (clientErrMessage 400 "bad request") ∧
      (processJob [fixturePending] "u1:birthday:2024-01-15" 0 5 (some fixtureUserLive)
        (.response 400 "bad request") 99).2 = .ack false false :=
  (c2_worker_outcomes [fixturePending] "u1:birthday:2024-01-15" 0 5 fixtureUserLive 99
    fixturePending (by decide) (by decide) (by decide)).1 400 "bad request"
    (by decide) (by decide)

/-- C3 (amended): when the recipient cannot be used, the worker does not
mark the record FAILED with "recipient unavailable". Instead: a recipient
with deleted_at set is acknowledged as skipped with no further transition,
leaving the record in the non-terminal PROCESSING state; a recipient that
is not found throws, is classified retriable, transitions the record to
RETRYING (or FAILED once attempts_made + 1 ≥ MAX_ATTEMPTS) with the error
message, and the job is rethrown so the queue retries it. -/
theorem c3_recipient_unavailable (s : Store) (k : String) (aMade maxA : Nat)
    (ev : EmailEvent) (now : Int) (log : MessageLog)
    (hk : findByIdempotencyKey s k = some log) (hst : log.status ≠ .sent) :
    (∀ (u : User) (t : Int), u.deletedAt = some t →
        ∃ r', findByIdempotencyKey (processJob s k aMade maxA (some u) ev now).1 k
            = some r' ∧ r'.status = .processing ∧ r'.errorMessage = log.errorMessage ∧
          (processJob s k aMade maxA (some u) ev now).2 = .ack true true) ∧
    (∃ r', findByIdempotencyKey (processJob s k aMade maxA none ev now).1 k = some r' ∧
        r'.status = workerFailStatus aMade maxA ∧
        r'.errorMessage = some "User not found" ∧
        (processJob s k aMade maxA none ev now).2 = .rethrow "User not found") := by
  have hk1 : findByIdempotencyKey (updateStatus s log.id .processing none now) k
      = some (applyStatus log .processing none now) := by
    rw [findByKey_updateStatus, hk]
    simp
  constructor
  · intro u t hdel
    have hres : processJob s k aMade maxA (some u) ev now
        = (updateStatus s log.id .processing none now, .ack true true) := by
      unfold processJob
      rw [hk]
      simp [if_neg hst, hdel]
    rw [hres]
    refine ⟨applyStatus log .processing none now, hk1, rfl, ?_, rfl⟩
    simp [applyStatus]
  · have hres : processJob s k aMade maxA none ev now
        = (handleRetriableError (updateStatus s log.id .processing none now) k
            "User not found" aMade maxA now, .rethrow "User not found") := by
      unfold processJob
      rw [hk]
      simp [if_neg hst]
    rw [hres]
    have hh : handleRetriableError (updateStatus s log.id .processing none now) k
        "User not found" aMade maxA now
        = updateStatus (updateStatus s log.id .processing none now) log.id
            (workerFailStatus aMade maxA) (some "User not found") now := by
      unfold handleRetriableError
      rw [hk1]
      rfl
    rw [hh]
    rw [findByKey_updateStatus, hk1]
    refine ⟨applyStatus (applyStatus log .processing none now) (workerFailStatus aMade maxA)
      (some "User not found") now, ?_, rfl, ?_, rfl⟩
    · simp [applyStatus_id]
    · rcases workerFailStatus_cases aMade maxA with hw | hw <;> simp [applyStatus, hw]

/-- C3 witness: the amended theorem applied to a concrete pending record and
a concrete soft-deleted recipient. -/
theorem c3_recipient_unavailable_witness :
    ∃ r', findByIdempotencyKey
          (processJob [fixturePending] "u1:birthday:2024-01-15" 0 5 (some fixtureUserDeleted)
            (.response 200 "ok") 99).1 "u1:birthday:2024-01-15" = some r' ∧
      r'.status = .processing ∧ r'.errorMessage = fixturePending.errorMessage ∧
      (processJob [fixturePending] "u1:birthday:2024-01-15" 0 5 (some fixtureUserDeleted)
        (.response 200 "ok") 99).2 = .ack true true :=
  (c3_recipient_unavailable [fixturePending] "u1:birthday:2024-01-15" 0 5
    (.response 200 "ok") 99 fixturePending (by decide) (by decide)).1
    fixtureUserDeleted (mkUTC 2024 1 10 0 0) (by decide)

/-- C3 counterexample: on a concrete job for a soft-deleted recipient the
worker leaves the record in PROCESSING with no error message and
acknowledges — the claim's required FAILED transition with error message
"recipient unavailable" never happens. -/
theorem c3_deleted_user_left_processing :
    (processJob [fixturePending] "u1:birthday:2024-01-15" 0 5 (some fixtureUserDeleted)
        (.response 200 "ok") 99).1.map (fun r => (r.status, r.errorMessage))
      = [(MessageStatus.processing, none)] ∧
    (processJob [fixturePending] "u1:birthday:2024-01-15" 0 5 (some fixtureUserDeleted)
        (.response 200 "ok") 99).2 = .ack true true ∧
    MessageStatus.processing ≠ MessageStatus.failed := by
  refine ⟨by decide, by decide, by decide⟩

/-! Claim C4. -/

/-- C4 (code evaluated at the failing input): a recipient whose birthday is
today and who is created at 15:00 local, after the 09:00 send hour, ends
with a record whose status is PENDING but whose error_message is null.
The handler computes the late marker and passes it to updateStatus, but
updateStatus persists an errorMessage only on FAILED or RETRYING, so the
"after scheduled send time" annotation the claim (and the handler's own
doc comment) requires is silently dropped. -/
theorem c4_late_marker_dropped :
    (scheduleBirthday [] fixtureUserLate (mkUTC 2024 6 1 15 0)).1.map
        (fun r => (r.status, r.errorMessage))
      = [(MessageStatus.pending, none)] ∧
    (scheduleBirthday [] fixtureUserLate (mkUTC 2024 6 1 15 0)).1.map
        (fun r => r.errorMessage) ≠ [some userCreatedLateMarker] := by
  refine ⟨by decide, by decide⟩

/-! Claim C9. -/

/-- C9 (code evaluated at the failing input): for a recipient born on
February 29 (timezone UTC) in the non-leap year 2025, the record is never
promoted to February 28. luxon's set with an explicitly-given day performs
no validation and overflows through Date.UTC, so the planner computes
2025-03-01: planning after March 1 (here 2025-06-01) skips entirely and
creates no row; planning before it (here 2025-01-15) creates a row for
2025-03-01 09:00Z with key "u2:birthday:2025-03-01"; and the sweeper's
(month, day) filter (29 against 28 or 1) matches neither on 2025-02-28
nor on 2025-03-01. Nothing produces the claim's 2025-02-28 record. -/
theorem c9_leap_day_not_promoted :
    scheduleBirthday [] fixtureUserLeap (mkUTC 2025 6 1 12 0) = ([], []) ∧
    (scheduleBirthday [] fixtureUserLeap (mkUTC 2025 1 15 12 0)).1.map
        (fun r => (r.scheduledDate, r.scheduledFor, r.idempotencyKey, r.status))
      = [(some ⟨2025, 3, 1⟩, some (mkUTC 2025 3 1 9 0), "u2:birthday:2025-03-01",
          MessageStatus.unprocessed)] ∧
    processTodayBirthdays [fixtureUserLeap] [] (mkUTC 2025 2 28 10 0) = [] ∧
    processTodayBirthdays [fixtureUserLeap] [] (mkUTC 2025 3 1 10 0) = [] ∧
    (some (⟨2025, 3, 1⟩ : CalDate) ≠ some ⟨2025, 2, 28⟩) := by
  refine ⟨by decide, by decide, by decide, by decide, by decide⟩

/-! Claim C5. -/

theorem updateStatus_append_fresh (s : Store) (r : MessageLog) (hr : r.id = freshId s)
    (st : MessageStatus) (e : Option String) (n : Int) :
    updateStatus (s ++ [r]) r.id st e n = s ++ [applyStatus r st e n] := by
  have hnot : ∀ x ∈ s, x.id ≠ r.id := by
    intro x hx
    have := mem_id_lt_freshId hx
    omega
  have hfind : findById (s ++ [r]) r.id = some r := by
    unfold findById
    rw [List.find?_append]
    have h1 : s.find? (fun rr => rr.id == r.id) = none := by
      rw [List.find?_eq_none]
      intro x hx
      simp [hnot x hx]
    simp [h1]
  unfold updateStatus
  rw [hfind]
  dsimp only
  rw [List.map_append]
  congr 1
  · conv_rhs => rw [show s = s.map id from (List.map_id s).symm]
    apply List.map_congr_left
    intro x hx
    simp [hnot x hx]
  · simp

/-- C5 (amended): on a sweep tick the promotion phase selects exactly the
recipients whose birth (month, day) matches today on the host clock — not
today in the recipient's own IANA timezone — and for each selected
recipient: a missing record is created and then transitioned to PENDING;
an existing UNPROCESSED record is transitioned to PENDING; any other
record is left unchanged. -/
theorem c5_promotion_amended (u : User) (s : Store) (now : Int) :
    (birthdayMatchesServerToday u now = false → processTodayBirthdays [u] s now = s) ∧
    (birthdayMatchesServerToday u now = true →
        processTodayBirthdays [u] s now = processUserBirthday s u now) ∧
    (∀ e, findByIdempotencyKey s (generateIdempotencyKey u.id "birthday"
          (some ⟨(localDT now u.tzOffset).year, (localDT now u.tzOffset).month,
            (localDT now u.tzOffset).day⟩)) = some e →
        (e.status = .unprocessed →
            processUserBirthday s u now = updateStatus s e.id .pending none now) ∧
        (e.status ≠ .unprocessed → processUserBirthday s u now = s)) ∧
    (findByIdempotencyKey s (generateIdempotencyKey u.id "birthday"
          (some ⟨(localDT now u.tzOffset).year, (localDT now u.tzOffset).month,
            (localDT now u.tzOffset).day⟩)) = none →
        ∃ r, processUserBirthday s u now = s ++ [r] ∧ r.status = .pending ∧
          r.attemptCount = 1 ∧
          r.idempotencyKey = generateIdempotencyKey u.id "birthday"
            (some ⟨(localDT now u.tzOffset).year, (localDT now u.tzOffset).month,
              (localDT now u.tzOffset).day⟩) ∧
          r.scheduledDate = some ⟨(localDT now u.tzOffset).year,
            (localDT now u.tzOffset).month, (localDT now u.tzOffset).day⟩) := by
  refine ⟨?_, ?_, ?_, ?_⟩
  · intro h
    simp [processTodayBirthdays, h]
  · intro h
    simp [processTodayBirthdays, h]
  · intro e he
    constructor
    · intro hst
      simp only [processUserBirthday]
      rw [he]
      simp [hst]
    · intro hst
      simp only [processUserBirthday]
      rw [he]
      simp [hst]
  · intro hn
    simp only [processUserBirthday]
    rw [hn, createOrGet_new _ _ _ _ hn]
    refine ⟨_, updateStatus_append_fresh s _ rfl .pending none now, rfl, rfl, rfl, rfl⟩

/-- C5 witness: the amended theorem applied to a concrete recipient whose
birth (month, day) matches the host clock's date, with an empty store —
the sweep creates the row and promotes it to PENDING. -/
theorem c5_promotion_amended_witness :
    ∃ r, processUserBirthday [] fixtureUserLive (mkUTC 2024 1 15 13 0) = [] ++ [r] ∧
      r.status = .pending ∧ r.attemptCount = 1 ∧
      r.idempotencyKey = generateIdempotencyKey fixtureUserLive.id "birthday"
        (some ⟨(localDT (mkUTC 2024 1 15 13 0) fixtureUserLive.tzOffset).year,
          (localDT (mkUTC 2024 1 15 13 0) fixtureUserLive.tzOffset).month,
          (localDT (mkUTC 2024 1 15 13 0) fixtureUserLive.tzOffset).day⟩) ∧
      r.scheduledDate = some ⟨(localDT (mkUTC 2024 1 15 13 0) fixtureUserLive.tzOffset).year,
        (localDT (mkUTC 2024 1 15 13 0) fixtureUserLive.tzOffset).month,
        (localDT (mkUTC 2024 1 15 13 0) fixtureUserLive.tzOffset).day⟩ :=
  (c5_promotion_amended fixtureUserLive [] (mkUTC 2024 1 15 13 0)).2.2.2 rfl

/-- C5 counterexample: a recipient in a UTC+10 zone whose birth (month,
day) is 2 June; at 2024-06-01T20:00Z it is already 2 June in the
recipient's own timezone, so the claim requires the sweep to select them
and create a PENDING record — but the sweep compares against the host
clock's date (1 June) and creates nothing. -/
theorem c5_own_timezone_not_used :
    (localDT (mkUTC 2024 6 1 20 0) fixtureUserEast.tzOffset).month
        = fixtureUserEast.birthDate.month ∧
    (localDT (mkUTC 2024 6 1 20 0) fixtureUserEast.tzOffset).day
        = fixtureUserEast.birthDate.day ∧
    processTodayBirthdays [fixtureUserEast] [] (mkUTC 2024 6 1 20 0) = [] := by
  refine ⟨by decide, by decide, by decide⟩

/-! Claim C6: the dispatch-loop characterization. -/

theorem qfold_counts (now : Int) (check : Bool) (addFail : String → Bool) :
    ∀ (l : List MessageLog) (st : QState),
      (l.foldl (qStep now check addFail) st).queued
        + (l.foldl (qStep now check addFail) st).skippedNotDue
        + (l.foldl (qStep now check addFail) st).skippedAlreadyQueued
        + (l.foldl (qStep now check addFail) st).failed.length
      = st.queued + st.skippedNotDue + st.skippedAlreadyQueued + st.failed.length
        + l.length := by
  intro l
  induction l with
  | nil => intro st; simp
  | cons a t ih =>
      intro st
      rw [List.foldl_cons, ih]
      unfold qStep
      split_ifs <;> simp <;> omega

theorem qfold_jobs_mono (now : Int) (check : Bool) (addFail : String → Bool) :
    ∀ (l : List MessageLog) (st : QState) (k : String),
      k ∈ st.jobs → k ∈ (l.foldl (qStep now check addFail) st).jobs := by
  intro l
  induction l with
  | nil => intro st k hk; simpa using hk
  | cons a t ih =>
      intro st k hk
      rw [List.foldl_cons]
      apply ih
      unfold qStep
      split_ifs <;> simp [hk]

theorem qfold_jobs_sub (now : Int) (check : Bool) (addFail : String → Bool) :
    ∀ (l : List MessageLog) (st : QState) (k : String),
      k ∈ (l.foldl (qStep now check addFail) st).jobs →
      k ∈ st.jobs ∨ k ∈ l.map (fun r => r.idempotencyKey) := by
  intro l
  induction l with
  | nil => intro st k hk; left; simpa using hk
  | cons a t ih =>
      intro st k hk
      rw [List.foldl_cons] at hk
      rcases ih _ k hk with h | h
      · revert h
        unfold qStep
        split_ifs <;> intro h <;> simp at h ⊢ <;> tauto
      · right
        simp [h]

theorem qfold_mem_iff (now : Int) (check : Bool) (addFail : String → Bool) :
    ∀ (l : List MessageLog) (st : QState),
      (l.map (fun r => r.idempotencyKey)).Nodup →
      (∀ r ∈ l, addFail r.idempotencyKey = false) →
      ∀ r ∈ l,
        (r.idempotencyKey ∈ (l.foldl (qStep now check addFail) st).jobs ↔
          r.idempotencyKey ∈ st.jobs ∨ (check && optGtInstant r.scheduledFor now) = false) := by
  intro l
  induction l with
  | nil => intro st _ _ r hr; cases hr
  | cons a t ih =>
      intro st hnd hfail r hr
      have hnd' : (a.idempotencyKey ∉ t.map (fun r => r.idempotencyKey))
          ∧ (t.map (fun r => r.idempotencyKey)).Nodup := by
        simpa using hnd
      rw [List.foldl_cons]
      rcases List.mem_cons.mp hr with hra | hrt
      · subst hra
        by_cases h1 : (check && optGtInstant r.scheduledFor now) = true
        · have hstep : (qStep now check addFail st r).jobs = st.jobs := by
            unfold qStep
            rw [if_pos h1]
          constructor
          · intro hmem
            rcases qfold_jobs_sub now check addFail t _ _ hmem with h | h
            · rw [hstep] at h
              exact Or.inl h
            · exact absurd h hnd'.1
          · intro hmem
            rcases hmem with h | h
            · exact qfold_jobs_mono now check addFail t _ _ (hstep ▸ h)
            · simp [h1] at h
        · have h1f : (check && optGtInstant r.scheduledFor now) = false := by
            simpa using h1
          by_cases h2 : r.idempotencyKey ∈ st.jobs
          · have hstep : (qStep now check addFail st r).jobs = st.jobs := by
              unfold qStep
              rw [if_neg (by simp [h1f]), if_pos (by simpa using h2)]
            constructor
            · intro _
              exact Or.inl h2
            · intro _
              exact qfold_jobs_mono now check addFail t _ _ (hstep ▸ h2)
          · have hstep : (qStep now check addFail st r).jobs
                = st.jobs ++ [r.idempotencyKey] := by
              unfold qStep
              rw [if_neg (by simp [h1f]), if_neg (by simpa using h2),
                if_neg (by simp [hfail r (List.mem_cons_self _ _)])]
            constructor
            · intro _
              exact Or.inr h1f
            · intro _
              apply qfold_jobs_mono now check addFail t _ _
              rw [hstep]
              simp
      · have hne : r.idempotencyKey ≠ a.idempotencyKey := by
          intro hc
          exact hnd'.1 (hc ▸ List.mem_map_of_mem (fun x => x.idempotencyKey) hrt)
        have hmemeq : r.idempotencyKey ∈ (qStep now check addFail st a).jobs ↔
            r.idempotencyKey ∈ st.jobs := by
          unfold qStep
          split_ifs <;> simp [hne]
        rw [ih _ hnd'.2 (fun x hx => hfail x (List.mem_cons_of_mem a hx)) r hrt, hmemeq]

/-- C6: in the sweep's dispatch phase over today's PENDING records (when
the queue's add never throws and keys are unique): a record's key is in
the queue afterwards iff it was already queued or — unless force mode
bypasses the check — its scheduled_for is not in the future (for a valid
scheduled_for t this is t ≤ now); with checkDueTime = false (the manual
trigger's force mode) the due-time check is bypassed; and the returned
summary counts every examined record in exactly one bucket, with total
equal to the number of records examined. The Schedule Store itself is
never written by this phase. -/
theorem c6_dispatch_summary (s : Store) (jobs0 : List String) (addFail : String → Bool)
    (now : Int) (checkDueTime : Bool)
    (hnd : ((findPendingForDate s (serverToday now)).map
        (fun r => r.idempotencyKey)).Nodup)
    (hfail : ∀ r ∈ findPendingForDate s (serverToday now),
        addFail r.idempotencyKey = false) :
    (queueDueMessages s jobs0 addFail now checkDueTime).1.total
        = (findPendingForDate s (serverToday now)).length ∧
    (queueDueMessages s jobs0 addFail now checkDueTime).1.queued
        + (queueDueMessages s jobs0 addFail now checkDueTime).1.skippedNotDue
        + (queueDueMessages s jobs0 addFail now checkDueTime).1.skippedAlreadyQueued
        + (queueDueMessages s jobs0 addFail now checkDueTime).1.failed.length
      = (queueDueMessages s jobs0 addFail now checkDueTime).1.total ∧
    (∀ r ∈ findPendingForDate s (serverToday now),
        (r.idempotencyKey ∈ (queueDueMessages s jobs0 addFail now checkDueTime).2 ↔
          r.idempotencyKey ∈ jobs0
            ∨ (checkDueTime && optGtInstant r.scheduledFor now) = false)) ∧
    (checkDueTime = false → ∀ r ∈ findPendingForDate s (serverToday now),
        r.idempotencyKey ∈ (queueDueMessages s jobs0 addFail now checkDueTime).2) ∧
    (∀ (t n : Int), optGtInstant (some t) n = false ↔ t ≤ n) := by
  refine ⟨rfl, ?_, ?_, ?_, ?_⟩
  · have h := qfold_counts now checkDueTime addFail
      (findPendingForDate s (serverToday now)) ⟨0, 0, 0, [], jobs0⟩
    simpa [queueDueMessages] using h
  · intro r hr
    exact qfold_mem_iff now checkDueTime addFail
      (findPendingForDate s (serverToday now)) ⟨0, 0, 0, [], jobs0⟩ hnd hfail r hr
  · intro hc r hr
    subst hc
    exact (qfold_mem_iff now false addFail
      (findPendingForDate s (serverToday now)) ⟨0, 0, 0, [], jobs0⟩ hnd hfail r hr).mpr
      (Or.inr (by simp))
  · intro t n
    simp [optGtInstant]

/-- C6 witness: the theorem applied to a concrete store with one due and
one not-yet-due pending row and an empty queue: the totals add up, the due
row is enqueued and the future row is not. -/
theorem c6_dispatch_summary_witness :
    (queueDueMessages [fixturePending, fixturePendingLater] [] (fun _ => false)
        (mkUTC 2024 1 15 14 0) true).1.total = 2 ∧
    (queueDueMessages [fixturePending, fixturePendingLater] [] (fun _ => false)
        (mkUTC 2024 1 15 14 0) true).1.queued
      + (queueDueMessages [fixturePending, fixturePendingLater] [] (fun _ => false)
          (mkUTC 2024 1 15 14 0) true).1.skippedNotDue
      + (queueDueMessages [fixturePending, fixturePendingLater] [] (fun _ => false)
          (mkUTC 2024 1 15 14 0) true).1.skippedAlreadyQueued
      + (queueDueMessages [fixturePending, fixturePendingLater] [] (fun _ => false)
          (mkUTC 2024 1 15 14 0) true).1.failed.length = 2 ∧
    "u1:birthday:2024-01-15" ∈ (queueDueMessages [fixturePending, fixturePendingLater] []
        (fun _ => false) (mkUTC 2024 1 15 14 0) true).2 ∧
    "u9:birthday:2024-01-15" ∉ (queueDueMessages [fixturePending, fixturePendingLater] []
        (fun _ => false) (mkUTC 2024 1 15 14 0) true).2 := by
  have h := c6_dispatch_summary [fixturePending, fixturePendingLater] [] (fun _ => false)
    (mkUTC 2024 1 15 14 0) true (by decide) (fun r _ => rfl)
  refine ⟨?_, ?_, ?_, ?_⟩
  · rw [h.1]; decide
  · rw [h.2.1, h.1]; decide
  · exact (h.2.2.1 fixturePending (by decide)).mpr (Or.inr (by decide))
  · intro hc
    have := (h.2.2.1 fixturePendingLater (by decide)).mp hc
    rcases this with h' | h'
    · simp at h'
    · exact absurd h' (by decide)

/-! Claim C10: edit handling in the notification service. -/

theorem idsNodup_updateStatus (s : Store) (i : Nat) (st : MessageStatus)
    (e : Option String) (n : Int) (h : idsNodup s) :
    idsNodup (updateStatus s i st e n) := by
  unfold updateStatus
  cases hf : findById s i with
  | none => exact h
  | some r =>
      unfold idsNodup at h ⊢
      rw [List.map_map]
      have hcomp : ((fun r => r.id) ∘ fun rr => if rr.id = i then applyStatus rr st e n else rr)
          = fun rr => rr.id := by
        funext x
        by_cases hx : x.id = i <;> simp [Function.comp, hx, applyStatus_id]
      rw [hcomp]
      exact h

theorem findByKey_updateStatus_other {s : Store} {k : String} {log : MessageLog}
    (j : Nat) (st : MessageStatus) (e : Option String) (n : Int)
    (hk : findByIdempotencyKey s k = some log) (hne : log.id ≠ j) :
    findByIdempotencyKey (updateStatus s j st e n) k = some log := by
  rw [findByKey_updateStatus, hk]
  simp [hne]

theorem find_preserved_ite {s : Store} {k : String} {log : MessageLog}
    (C : Prop) [Decidable C] (j : Nat) (st : MessageStatus) (err : Option String)
    (n : Int) (t1 t2 : List Action)
    (hk : findByIdempotencyKey s k = some log) (hne : log.id ≠ j) :
    findByIdempotencyKey (if C then (updateStatus s j st err n, t1) else (s, t2)).1 k
      = some log := by
  by_cases hC : C
  · rw [if_pos hC]
    exact findByKey_updateStatus_other _ _ _ _ hk hne
  · rw [if_neg hC]
    exact hk

theorem scheduleBirthday_preserves (s : Store) (u : User) (now : Int) (k : String)
    (log : MessageLog) (hids : idsNodup s)
    (hk : findByIdempotencyKey s k = some log) (hne : planKey u now ≠ k) :
    findByIdempotencyKey (scheduleBirthday s u now).1 k = some log := by
  have hne' : generateIdempotencyKey u.id "birthday"
      ((luxonSetMDH (some (localDT now u.tzOffset)) u.birthDate.month u.birthDate.day 0).map
        (fun dt => ⟨dt.year, dt.month, dt.day⟩)) ≠ k := by
    simpa [planKey] using hne
  simp only [scheduleBirthday]
  split
  · exact hk
  · cases hcg : findByIdempotencyKey s (generateIdempotencyKey u.id "birthday"
        ((luxonSetMDH (some (localDT now u.tzOffset)) u.birthDate.month u.birthDate.day 0).map
          (fun dt => ⟨dt.year, dt.month, dt.day⟩))) with
    | some e =>
        rw [createOrGet_existing _ _ _ _ hcg]
        have hmem_e := findByKey_some_mem hcg
        have hmem_log := findByKey_some_mem hk
        have hnelog : e ≠ log := by
          intro hc
          apply hne'
          rw [← findByKey_some_key hcg, hc, findByKey_some_key hk]
        have hidne : log.id ≠ e.id := by
          intro hc
          exact hnelog (List.inj_on_of_nodup_map hids hmem_e hmem_log hc.symm)
        dsimp only
        exact find_preserved_ite _ _ _ _ _ _ _ hk hidne
    | none =>
        rw [createOrGet_new _ _ _ _ hcg]
        have hfindk : ∀ r : MessageLog, findByIdempotencyKey (s ++ [r]) k = some log := by
          intro r
          unfold findByIdempotencyKey at hk ⊢
          rw [List.find?_append, hk]
          rfl
        have hlt := mem_id_lt_freshId (findByKey_some_mem hk)
        have hnefresh : log.id ≠ freshId s := by omega
        dsimp only
        exact find_preserved_ite _ _ _ _ _ _ _ (hfindk _) hnefresh

theorem pending_or_unprocessed_status (log : MessageLog) (cb : Bool)
    (err : Option String) (n : Int) :
    (applyStatus log (if cb = true then MessageStatus.pending else .unprocessed)
        err n).status = MessageStatus.pending ∨
    (applyStatus log (if cb = true then MessageStatus.pending else .unprocessed)
        err n).status = MessageStatus.unprocessed := by
  cases cb <;> simp [applyStatus]

theorem find_self_ite {s : Store} {k : String} {log : MessageLog}
    (C : Prop) [Decidable C] (cb : Bool) (err : Option String) (n : Int)
    (t1 t2 : List Action)
    (hk : findByIdempotencyKey s k = some log) :
    ∃ r', findByIdempotencyKey
        (if C then (updateStatus s log.id
            (if cb = true then MessageStatus.pending else .unprocessed) err n, t1)
          else (s, t2)).1 k = some r' ∧
      (r' = log ∨ r'.status = .pending ∨ r'.status = .unprocessed) := by
  by_cases hC : C
  · rw [if_pos hC]
    refine ⟨applyStatus log (if cb = true then .pending else .unprocessed) err n, ?_, ?_⟩
    · rw [findByKey_updateStatus, hk]
      simp
    · exact Or.inr (pending_or_unprocessed_status log cb err n)
  · rw [if_neg hC]
    exact ⟨log, hk, Or.inl rfl⟩

theorem scheduleBirthday_self (s : Store) (u : User) (now : Int) (log : MessageLog)
    (hk : findByIdempotencyKey s (planKey u now) = some log) :
    ∃ r', findByIdempotencyKey (scheduleBirthday s u now).1 (planKey u now) = some r' ∧
      (r' = log ∨ r'.status = .pending ∨ r'.status = .unprocessed) := by
  have hk' : findByIdempotencyKey s (generateIdempotencyKey u.id "birthday"
      ((luxonSetMDH (some (localDT now u.tzOffset)) u.birthDate.month u.birthDate.day 0).map
        (fun dt => ⟨dt.year, dt.month, dt.day⟩))) = some log := by
    simpa [planKey] using hk
  simp only [scheduleBirthday]
  split
  · exact ⟨log, hk, Or.inl rfl⟩
  · rw [createOrGet_existing _ _ _ _ hk']
    dsimp only
    exact find_self_ite _ _ _ _ _ _ hk

/-- C10 (amended): on a birth-date or timezone edit the queue job keyed by
the record's idempotency key is removed before any Schedule Store write
(when the job exists, the removal is the first action of the trace). A
timezone edit leaves a record in PROCESSING or SENT entirely unchanged,
and no edit ever transitions a PROCESSING or SENT record to FAILED; when
a birth-date edit's new plan key differs from the record's key the record
is left unchanged, but when the keys collide (a year-only birth-date
change) the replanning may move the record back to PENDING. On a
birth-date change a record in UNPROCESSED or PENDING is transitioned to
FAILED with error_message "Cancelled due to birthdate change" (capital C
— not the claim's "cancelled due to birthdate change") before the record
for the new date is planned, and when the new plan key differs from the
old key the record stays in that FAILED state. -/
theorem c10_edit_ordering (s : Store) (jobs : List String) (u oldU : User) (now : Int)
    (hids : idsNodup s) :
    (jobs.contains (keyForBirthday u.id oldU.birthDate now) = true →
        ∃ rest, (handleBirthdateChange s jobs u oldU now).2.2
            = Action.queueRemove (keyForBirthday u.id oldU.birthDate now) :: rest) ∧
    (jobs.contains (keyForBirthday u.id u.birthDate now) = true →
        ∃ rest, (handleTimezoneChange s jobs u oldU now).2.2
            = Action.queueRemove (keyForBirthday u.id u.birthDate now) :: rest) ∧
    (∀ log, findByIdempotencyKey s (keyForBirthday u.id oldU.birthDate now) = some log →
        (log.status = .processing ∨ log.status = .sent) →
        planKey u now ≠ keyForBirthday u.id oldU.birthDate now →
        findByIdempotencyKey (handleBirthdateChange s jobs u oldU now).1
            (keyForBirthday u.id oldU.birthDate now) = some log) ∧
    (∀ log, findByIdempotencyKey s (keyForBirthday u.id oldU.birthDate now) = some log →
        (log.status = .processing ∨ log.status = .sent) →
        planKey u now = keyForBirthday u.id oldU.birthDate now →
        ∃ r', findByIdempotencyKey (handleBirthdateChange s jobs u oldU now).1
            (keyForBirthday u.id oldU.birthDate now) = some r' ∧
          (r' = log ∨ r'.status = .pending ∨ r'.status = .unprocessed) ∧
          r'.status ≠ .failed) ∧
    (∀ log, findByIdempotencyKey s (keyForBirthday u.id u.birthDate now) = some log →
        (log.status = .processing ∨ log.status = .sent) →
        (handleTimezoneChange s jobs u oldU now).1 = s) ∧
    (∀ log, findByIdempotencyKey s (keyForBirthday u.id oldU.birthDate now) = some log →
        (log.status = .unprocessed ∨ log.status = .pending) →
        ∃ pre rest, (handleBirthdateChange s jobs u oldU now).2.2
            = pre ++ Action.storeStatus log.id .failed :: rest ∧
          ∀ a ∈ pre, a = Action.queueRemove (keyForBirthday u.id oldU.birthDate now)) ∧
    (∀ log, findByIdempotencyKey s (keyForBirthday u.id oldU.birthDate now) = some log →
        (log.status = .unprocessed ∨ log.status = .pending) →
        planKey u now ≠ keyForBirthday u.id oldU.birthDate now →
        findByIdempotencyKey (handleBirthdateChange s jobs u oldU now).1
            (keyForBirthday u.id oldU.birthDate now)
          = some (applyStatus log .failed (some cancelledMessage) now)) := by
  refine ⟨?_, ?_, ?_, ?_, ?_, ?_, ?_⟩
  · intro hcontains
    simp only [handleBirthdateChange, hcontains]
    cases hfind : findByIdempotencyKey s (keyForBirthday u.id oldU.birthDate now) with
    | some oldLog =>
        dsimp only
        split_ifs <;> exact ⟨_, rfl⟩
    | none =>
        dsimp only
        exact ⟨_, rfl⟩
  · intro hcontains
    simp only [handleTimezoneChange, hcontains]
    cases hfind : findByIdempotencyKey s (keyForBirthday u.id u.birthDate now) with
    | some log =>
        dsimp only
        split_ifs <;> exact ⟨_, rfl⟩
    | none =>
        dsimp only
        exact ⟨_, rfl⟩
  · intro log hfind hstatus hne
    simp only [handleBirthdateChange, hfind]
    rw [if_pos hstatus]
    exact scheduleBirthday_preserves s u now _ log hids hfind hne
  · intro log hfind hstatus hkey
    simp only [handleBirthdateChange, hfind]
    rw [if_pos hstatus]
    rw [← hkey]
    have hfind' : findByIdempotencyKey s (planKey u now) = some log := by
      rw [hkey]
      exact hfind
    obtain ⟨r', h1, h2⟩ := scheduleBirthday_self s u now log hfind'
    refine ⟨r', h1, h2, ?_⟩
    rcases h2 with h | h | h
    · subst h
      rcases hstatus with hs | hs <;> simp [hs]
    · simp [h]
    · simp [h]
  · intro log hfind hstatus
    simp only [handleTimezoneChange, hfind]
    rcases hstatus with hp | hs
    · rw [if_pos hp]
    · by_cases hp : log.status = .processing
      · rw [if_pos hp]
      · rw [if_neg hp, if_pos hs]
  · intro log hfind hstatus
    have hnps : ¬(log.status = .processing ∨ log.status = .sent) := by
      rcases hstatus with h | h <;> rw [h] <;> intro hc <;> rcases hc with hc | hc <;>
        simp at hc
    simp only [handleBirthdateChange, hfind]
    rw [if_neg hnps, if_pos hstatus]
    refine ⟨if jobs.contains (keyForBirthday u.id oldU.birthDate now)
        then [Action.queueRemove (keyForBirthday u.id oldU.birthDate now)] else [],
      (scheduleBirthday (updateStatus s log.id .failed (some cancelledMessage) now)
        u now).2, ?_, ?_⟩
    · simp
    · intro a ha
      split at ha <;> simp at ha
      exact ha
  · intro log hfind hstatus hne
    have hnps : ¬(log.status = .processing ∨ log.status = .sent) := by
      rcases hstatus with h | h <;> rw [h] <;> intro hc <;> rcases hc with hc | hc <;>
        simp at hc
    simp only [handleBirthdateChange, hfind]
    rw [if_neg hnps, if_pos hstatus]
    have hfind1 : findByIdempotencyKey
        (updateStatus s log.id .failed (some cancelledMessage) now)
        (keyForBirthday u.id oldU.birthDate now)
        = some (applyStatus log .failed (some cancelledMessage) now) := by
      rw [findByKey_updateStatus, hfind]
      simp
    exact scheduleBirthday_preserves _ u now _ _
      (idsNodup_updateStatus s log.id .failed (some cancelledMessage) now hids) hfind1 hne

/-- C10 witness: the amended theorem's birth-date-change branches applied
to a concrete PENDING record, a queued job, and a new birth date with a
distinct key: the record ends FAILED with the capitalized cancellation
message, and that transition precedes the new plan's actions. -/
theorem c10_edit_ordering_witness :
    findByIdempotencyKey (handleBirthdateChange [fixturePending]
        ["u1:birthday:2024-01-15"] fixtureUserNewBirth fixtureUserLive
        (mkUTC 2024 1 15 13 0)).1
        (keyForBirthday fixtureUserNewBirth.id fixtureUserLive.birthDate
          (mkUTC 2024 1 15 13 0))
      = some (applyStatus fixturePending .failed (some cancelledMessage)
          (mkUTC 2024 1 15 13 0)) ∧
    ∃ pre rest, (handleBirthdateChange [fixturePending] ["u1:birthday:2024-01-15"]
        fixtureUserNewBirth fixtureUserLive (mkUTC 2024 1 15 13 0)).2.2
        = pre ++ Action.storeStatus fixturePending.id .failed :: rest ∧
      ∀ a ∈ pre, a = Action.queueRemove (keyForBirthday fixtureUserNewBirth.id
        fixtureUserLive.birthDate (mkUTC 2024 1 15 13 0)) :=
  ⟨(c10_edit_ordering [fixturePending] ["u1:birthday:2024-01-15"] fixtureUserNewBirth
      fixtureUserLive (mkUTC 2024 1 15 13 0)
      (by unfold idsNodup; decide)).2.2.2.2.2.2 fixturePending
      (by decide) (Or.inr rfl) (by decide),
    (c10_edit_ordering [fixturePending] ["u1:birthday:2024-01-15"] fixtureUserNewBirth
      fixtureUserLive (mkUTC 2024 1 15 13 0)
      (by unfold idsNodup; decide)).2.2.2.2.2.1 fixturePending
      (by decide) (Or.inr rfl)⟩

/-- C10 counterexample: two refutations of the claim as stated. First, the
stored cancellation message is "Cancelled due to birthdate change"
(capital C), not the claim's "cancelled due to birthdate change". Second,
a record in SENT is not immune to the edit: a year-only birth-date change
computes the same idempotency key, and on the recipient's birthday the
replanning moves the concrete SENT row back to PENDING (sent_at still
set) — so a SENT record is rescheduled by the edit. -/
theorem c10_cancelled_message_differs :
    (findByIdempotencyKey (handleBirthdateChange [fixturePending] []
        fixtureUserNewBirth fixtureUserLive (mkUTC 2024 1 15 13 0)).1
        "u1:birthday:2024-01-15").map (fun r => r.errorMessage)
      = some (some "Cancelled due to birthdate change") ∧
    ("Cancelled due to birthdate change" : String) ≠ "cancelled due to birthdate change" ∧
    (findByIdempotencyKey (handleBirthdateChange [fixtureSent] []
        fixtureUserYearEdit fixtureUserLive (mkUTC 2024 1 15 13 0)).1
        "u1:birthday:2024-01-15").map (fun r => (r.status, r.sentAt.isSome))
      = some (MessageStatus.pending, true) ∧
    MessageStatus.pending ≠ MessageStatus.sent := by
  refine ⟨by decide, by decide, by decide, by decide⟩

end SDT
